import Mathlib

/-!
Shallow embedding of `igel` (src/igel/igel.py): the command-driven
model-lifecycle orchestrator `IgelModel` with its `fit`, `evaluate` and
`predict` operations, the tabular data preparer `_process_data`, the model
registry lookup `_create_model`, and the artifact store (results directory
holding `model.sav`, `description.json`, `evaluation.json`,
`predictions.csv`).

Conventions of the embedding:
* a pandas `DataFrame` is a `Frame`: an ordered list of named columns
  (CSV files parsed by `pd.read_csv` always have unique column names);
* a numpy array is an `NpArray`; a 2-D array is stored column-major
  (a list of columns), so `a[:, i]` is list indexing and
  `DataFrame.to_numpy` is projection of the column values;
* Python exceptions are values of `Err`; an operation's result is an
  `Outcome`: `success`, `caught e` (the exception was caught by a
  `try/except` at the top of the operation, logged, and the method
  returned normally), or `raised e` (the exception propagated to the
  caller);
* the filesystem results directory is the record `FS`; writing a file
  sets the corresponding field;
* the opaque collaborators (the concrete sklearn estimators, the metric
  evaluator) are parameters: a fitted estimator is a `SavedModel`
  carrying its class name and an arbitrary prediction function, the
  training step is a parameter `fm : ModelType → NpArray → NpArray →
  SavedModel`, metric computation is a parameter `evalFn`.
-/

/-- Values stored in a table cell. The claims under study are about column
names, ordering and shapes, never about arithmetic on the cell values, so
an integer value type suffices. -/
abbrev Val := Int

/-- One column of values. -/
abbrev Col := List Val

/-- A pandas `DataFrame`: ordered, named columns. -/
structure Frame where
  columns : List (String × Col)
deriving DecidableEq

/-- Column names of a frame, in order (`list(dataset.columns)`). -/
def Frame.colNames (f : Frame) : List String :=
  f.columns.map Prod.fst

/-- Row count of a frame (length of its first column; a frame read from a
CSV file has all columns of equal length). -/
def Frame.nRows (f : Frame) : Nat :=
  match f.columns with
  | [] => 0
  | c :: _ => c.2.length

/-- Values of the column named `t` (first occurrence), or `[]` if absent. -/
def Frame.colValues (f : Frame) (t : String) : Col :=
  match f.columns.find? (fun c => c.1 == t) with
  | some c => c.2
  | none => []

/-- A numpy array: 1-dimensional, or 2-dimensional stored column-major
(list of columns, so `a[:, i]` is the `i`-th list entry). -/
inductive NpArray where
  | oneD : Col → NpArray
  | twoD : List Col → NpArray
deriving DecidableEq

/-- Modelled from the spec: `_reshape` from `igel.utils` (the module is not
part of the sources under study). Per §4.2 of the spec, an array with fewer
than 2 dimensions gets a trailing dimension added so that downstream calls
receive a uniform 2-D shape; a shape `(n,)` becomes `(n, 1)`, i.e. a single
column. 2-D input is returned unchanged. -/
def reshape : NpArray → NpArray
  | .oneD v => .twoD [v]
  | .twoD m => .twoD m

/-- `DataFrame.to_numpy()`: the 2-D array of the frame's values
(column-major). -/
def Frame.toNumpy (f : Frame) : NpArray :=
  .twoD (f.columns.map Prod.snd)

/-- Python exceptions that the orchestrator can raise or catch, named
after the Python exception that occurs at the corresponding source line. -/
inductive Err where
  /-- an `assert` statement failed (e.g. unsupported model type,
  line 64, or empty target list, line 126) -/
  | assertionError
  /-- `raise Exception("Model not found in the algorithms list")`, line 68 -/
  | modelNotFound
  /-- `KeyError` from `dataset.pop` on an absent column, line 135 -/
  | keyError
  /-- `TypeError` from unpacking the `None` returned by a failed
  `_process_data` into `x, y` (lines 164, 194) -/
  | typeError
  /-- `FileNotFoundError` from opening a missing file (line 52) -/
  | fileNotFound
  /-- `AttributeError` from calling `.predict` on the `None` returned by a
  failed `_load_model` (lines 195, 217) -/
  | attributeError
  /-- failure reading or extracting the yaml configuration (lines 45-48) -/
  | configurationError
  /-- `IndexError` from `y_pred[:, i]` with `i` out of range (line 222) -/
  | indexError
deriving DecidableEq

/-- Outcome of one command operation: normal return, an exception caught
and logged at the top of the operation (the method still returns), or an
exception propagated to the caller. -/
inductive Outcome where
  | success
  | caught (e : Err)
  | raised (e : Err)
deriving DecidableEq

/-- True iff the outcome is an exception propagated to the caller. -/
def Outcome.isRaised : Outcome → Bool
  | .raised _ => true
  | _ => false

/-- A fitted estimator as stored in `model.sav`: its class name and its
(opaque) prediction capability. -/
structure SavedModel where
  className : String
  predictFn : NpArray → NpArray

/-- The persisted `description.json` document (written at the end of
`fit`, lines 170-177). -/
structure Description where
  model : String
  type : String
  data_path : String
  results_path : String
  model_path : String
  target : List String
deriving DecidableEq

/-- An `evaluation.json` document: metric name to value. -/
abbrev EvalDoc := List (String × Val)

/-- The artifact store: contents of the results directory. A field is
`none` when the corresponding file does not exist. -/
structure FS where
  modelFile : Option SavedModel
  descriptionFile : Option Description
  evaluationFile : Option EvalDoc
  predictionsFile : Option Frame

/-- The empty results directory. -/
def emptyFS : FS :=
  ⟨none, none, none, none⟩

/-- Class attribute `commands = ('fit', 'evaluate', 'predict')`, line 23. -/
def commands : List String := ["fit", "evaluate", "predict"]

/-- Class attribute `model_types = ('regression', 'classification')`,
line 24. -/
def modelTypes : List String := ["regression", "classification"]

/-- Class attribute `stats_dir = 'model_results'` and
`res_path = Path(os.getcwd()) / stats_dir` (lines 30-31), modelled as the
directory name relative to the working directory. -/
def res_path : String := "model_results"

/-- The constructible estimator classes held by the registry. -/
inductive ModelType where
  | linearRegression
  | lasso
  | logisticRegression
  | randomForest
deriving DecidableEq

/-- Python `model.__class__.__name__` for each registry entry. -/
def ModelType.className : ModelType → String
  | .linearRegression => "LinearRegression"
  | .lasso => "Lasso"
  | .logisticRegression => "LogisticRegression"
  | .randomForest => "RandomForestClassifier"

/-- Modelled from the spec: the regression half of `igel.data.models_dict`
(the module is not part of the sources under study). Per §4.1 the registry
is a closed static mapping from algorithm name to a constructible model
type; the spec's scenario in §8 names `LinearRegression` as a regression
algorithm. -/
def regressionModels (name : String) : Option ModelType :=
  if name = "LinearRegression" then some .linearRegression
  else if name = "Lasso" then some .lasso
  else none

/-- Modelled from the spec: the classification half of
`igel.data.models_dict` (the module is not part of the sources under
study). -/
def classificationModels (name : String) : Option ModelType :=
  if name = "LogisticRegression" then some .logisticRegression
  else if name = "RandomForest" then some .randomForest
  else none

/-- Modelled from the spec: `igel.data.models_dict`, a static mapping from
problem kind to its algorithm table (§4.1: supports lookup only, closed
enumeration over the two recognized kinds). -/
def modelsDict (kind : String) : Option (String → Option ModelType) :=
  if kind = "regression" then some regressionModels
  else if kind = "classification" then some classificationModels
  else none

/-- `IgelModel._create_model` (lines 57-70): assert the model type is
supported, look the algorithm up in the registry, raise if absent. -/
def createModel (model_type model_algorithm : String) : Except Err ModelType :=
  if model_type ∈ modelTypes then
    match modelsDict model_type with
    | some algorithms =>
      match algorithms model_algorithm with
      | some model => .ok model
      | none => .error .modelNotFound
    | none => .error .attributeError
  else .error .assertionError

/-- The run-time configuration extracted from the yaml definition file by
`extract_params` (line 48): `(model_type, target, algorithm)`. -/
structure RunConfig where
  model_type : String
  target : List String
  algorithm : String
deriving DecidableEq

/-- The orchestrator's state after `__init__`: the stored command, the cli
`data_path`, and either the yaml-extracted parameters (for `fit`) or the
parameters recovered from `description.json` (otherwise). -/
structure IgelState where
  command : String
  data_path : String
  model_type : String
  target : List String
  algorithm : String
  model_path : Option String
deriving DecidableEq

/-- `IgelModel.__init__` (lines 34-55). An invalid command is only logged
(`logger.exception` outside an `except` block merely logs); the command is
stored unconditionally and construction branches solely on
`command == "fit"`: the `fit` branch reads the yaml configuration (its
parsing by `read_yaml`/`extract_params` is outside the sources under study
and is modelled as the given `cfg`, `none` meaning unreadable
configuration), every other command reads `description.json` from the
results directory, raising `FileNotFoundError` if it is absent. -/
def IgelModel.init (command : String) (fs : FS) (cfg : Option RunConfig)
    (cliModelPath : Option String) (dataPath : String) : Except Err IgelState :=
  if command = "fit" then
    match cfg with
    | none => .error .configurationError
    | some c => .ok ⟨command, dataPath, c.model_type, c.target, c.algorithm, none⟩
  else
    match fs.descriptionFile with
    | none => .error .fileNotFound
    | some d => .ok ⟨command, dataPath, d.type, d.target, "", cliModelPath⟩

/-- Remove the first column named `n` from a column list, returning its
values and the remaining columns in their original order
(`dataset.pop(n)`; `none` is a `KeyError`). -/
def popColumn : List (String × Col) → String → Option (Col × List (String × Col))
  | [], _ => none
  | c :: cs, n =>
    if c.1 = n then some (c.2, cs)
    else
      match popColumn cs n with
      | none => none
      | some (v, rest) => some (v, c :: rest)

/-- `dataset.pop(n)` on a frame. -/
def Frame.pop (f : Frame) (n : String) : Option (Col × Frame) :=
  match popColumn f.columns n with
  | none => none
  | some (v, rest) => some (v, ⟨rest⟩)

/-- The comprehension `[dataset.pop(x) for x in self.target]` together with
`pd.concat(..., axis=1)` (line 135): pop each target in the given order,
collecting the popped columns; a failing pop is a `KeyError`. -/
def popTargets : Frame → List String → Except Err (List Col × Frame)
  | f, [] => .ok ([], f)
  | f, t :: ts =>
    match f.pop t with
    | none => .error .keyError
    | some (v, f') =>
      match popTargets f' ts with
      | .error e => .error e
      | .ok (vs, f'') => .ok (v :: vs, f'')

/-- `IgelModel._process_data` (lines 120-142). The two `assert` statements
sit before the `try` block, so their failure propagates (`.error`); every
exception inside the `try` (absent target column, `KeyError` from `pop`) is
caught and logged and the method returns `None` (`.ok none`). On success it
returns `x, y`: the reshaped feature array (the dataset minus the popped
target columns, original column order) and the reshaped target array (the
popped target columns, in target order). The `isinstance(self.target, list)`
assert is vacuous here because the embedding types `target` as a list. -/
def processData (target : List String) (dataset : Frame) :
    Except Err (Option (NpArray × NpArray)) :=
  if target.length = 0 then .error .assertionError
  else
    let features := dataset.colNames
    if target.any (fun col => !(features.contains col)) then .ok none
    else
      match popTargets dataset target with
      | .error _ => .ok none
      | .ok (ycols, rest) =>
        .ok (some (reshape rest.toNumpy, reshape (.twoD ycols)))

/-- `IgelModel._prepare_predict_data` (lines 144-154): read the CSV into a
frame and `_reshape` it; a `DataFrame` already has 2 dimensions, so the
reshape leaves it unchanged. -/
def preparePredictData (f : Frame) : Frame := f

/-- `IgelModel._load_model` (lines 95-112): with no explicit path, load
`model.sav` from the results directory; with an explicit path, load from
that file (`extFiles` maps paths outside the results directory to their
contents). A `FileNotFoundError` is caught inside the method, which then
returns `None`. -/
def loadModel (fs : FS) (mp : Option String)
    (extFiles : String → Option SavedModel) : Option SavedModel :=
  match mp with
  | none => fs.modelFile
  | some p => extFiles p

/-- `IgelModel.fit` (lines 156-185): resolve the model class, prepare the
data, train, write `model.sav`, then write `description.json`. The method
body is not wrapped in a `try`: exceptions from `_create_model` and from
unpacking a failed `_process_data` propagate to the caller (`.raised`),
leaving the artifact store untouched. Directory creation and the two file
writes are modelled as succeeding; training is the opaque collaborator
`fm`. -/
def IgelModel.fit (fm : ModelType → NpArray → NpArray → SavedModel)
    (st : IgelState) (dataset : Frame) (fs : FS) : Outcome × FS :=
  match createModel st.model_type st.algorithm with
  | .error e => (.raised e, fs)
  | .ok mt =>
    match processData st.target dataset with
    | .error e => (.raised e, fs)
    | .ok none => (.raised .typeError, fs)
    | .ok (some (x, y)) =>
      let trained := fm mt x y
      let fs1 : FS := { fs with modelFile := some trained }
      let desc : Description :=
        { model := mt.className
          type := st.model_type
          data_path := st.data_path
          results_path := res_path
          model_path := res_path
          target := st.target }
      (.success, { fs1 with descriptionFile := some desc })

/-- `y_pred[:, i] if len(y_pred.shape) > 1 else y_pred` (line 222): column
`i` of a 2-D array (an out-of-range `i` is an `IndexError`), or the whole
array when it is 1-D. -/
def npColumn (a : NpArray) (i : Nat) : Except Err Col :=
  match a with
  | .oneD v => .ok v
  | .twoD cols =>
    match cols.get? i with
    | some c => .ok c
    | none => .error .indexError

/-- Python `dict` insertion: a duplicate key overwrites the stored value
but keeps the key's original position; a new key is appended. -/
def dictInsert (d : List (String × Col)) (k : String) (v : Col) :
    List (String × Col) :=
  if d.any (fun p => p.1 == k) then
    d.map (fun p => if p.1 == k then (k, v) else p)
  else d ++ [(k, v)]

/-- The dict comprehension of line 222, evaluated left to right for
`i = 0 .. len(target) - 1`. -/
def buildPredDict (ypred : NpArray) :
    List String → Nat → List (String × Col) → Except Err (List (String × Col))
  | [], _, acc => .ok acc
  | t :: ts, i, acc =>
    match npColumn ypred i with
    | .error e => .error e
    | .ok c => buildPredDict ypred ts (i + 1) (dictInsert acc t c)

/-- `pd.DataFrame.from_dict({self.target[i]: ... for i in range(len(self.target))})`
(line 222): the predictions frame, one column per target name. -/
def buildPredFrame (target : List String) (ypred : NpArray) : Except Err Frame :=
  match buildPredDict ypred target 0 [] with
  | .error e => .error e
  | .ok d => .ok ⟨d⟩

/-- `IgelModel.predict` (lines 209-229): load the model, prepare the
prediction data, predict, `_reshape` the raw output, rebuild the named
prediction frame, write `predictions.csv`. The whole body is wrapped in
`try/except Exception`, so every failure is caught (`.caught`) and the
method returns with the artifact store untouched. -/
def IgelModel.predict (st : IgelState) (fs : FS)
    (extFiles : String → Option SavedModel) (xval : Frame) : Outcome × FS :=
  match loadModel fs st.model_path extFiles with
  | none => (.caught .attributeError, fs)
  | some m =>
    let xp := preparePredictData xval
    let ypred := reshape (m.predictFn xp.toNumpy)
    match buildPredFrame st.target ypred with
    | .error e => (.caught e, fs)
    | .ok df => (.success, { fs with predictionsFile := some df })

/-- `IgelModel.evaluate` (lines 187-207): load the model, prepare the
validation data, predict, compute metrics (the opaque collaborator
`evalFn`, modelled from the spec: `igel.data.evaluate_model` is not part
of the sources under study), write `evaluation.json`. The whole body is
wrapped in `try/except Exception`, so every failure is caught (`.caught`)
and the method returns with the artifact store untouched. -/
def IgelModel.evaluate (evalFn : String → NpArray → NpArray → EvalDoc)
    (st : IgelState) (fs : FS) (extFiles : String → Option SavedModel)
    (valData : Frame) : Outcome × FS :=
  match loadModel fs st.model_path extFiles with
  | none => (.caught .attributeError, fs)
  | some m =>
    match processData st.target valData with
    | .error e => (.caught e, fs)
    | .ok none => (.caught .typeError, fs)
    | .ok (some (x, y)) =>
      let ypred := m.predictFn x
      let res := evalFn st.model_type ypred y
      (.success, { fs with evaluationFile := some res })

/-- Modelled from the spec: one whole command invocation (the CLI layer
that constructs the orchestrator and dispatches to the method named by the
command is not part of the sources under study; §4.4 of the spec describes
the construction followed by the operation). An exception during
construction propagates (`.raised`) and nothing is run. -/
def runCommand (fm : ModelType → NpArray → NpArray → SavedModel)
    (evalFn : String → NpArray → NpArray → EvalDoc)
    (extFiles : String → Option SavedModel)
    (command : String) (cfg : Option RunConfig) (cliModelPath : Option String)
    (dataPath : String) (fs : FS) (data : Frame) : Outcome × FS :=
  match IgelModel.init command fs cfg cliModelPath dataPath with
  | .error e => (.raised e, fs)
  | .ok st =>
    if st.command = "fit" then IgelModel.fit fm st data fs
    else if st.command = "evaluate" then IgelModel.evaluate evalFn st fs extFiles data
    else if st.command = "predict" then IgelModel.predict st fs extFiles data
    else (.success, fs)

/-- The orchestrator state produced by constructing with command `fit`. -/
def fitState (cfg : RunConfig) (dp : String) : IgelState :=
  ⟨"fit", dp, cfg.model_type, cfg.target, cfg.algorithm, none⟩

/-- The orchestrator state produced by constructing with command `predict`
against a results directory whose description was written by a `fit` run
of configuration `cfg`. -/
def predState (cfg : RunConfig) (dp : String) : IgelState :=
  ⟨"predict", dp, cfg.model_type, cfg.target, "", none⟩

/-- A configuration the spec calls valid (§3 `RunConfiguration` invariant
and §4.1): recognized problem kind, algorithm registered under that kind,
non-empty `target_columns` whose entries stay resolvable as column names
throughout data preparation (entries are popped one by one, so they must
be pairwise distinct). -/
def ValidConfig (cfg : RunConfig) : Prop :=
  cfg.model_type ∈ modelTypes ∧
  ((modelsDict cfg.model_type).getD (fun _ => none)) cfg.algorithm ≠ none ∧
  cfg.target ≠ [] ∧ cfg.target.Nodup

/-- Shape contract for the opaque prediction capability (§6 of the spec):
on an input with `n` rows, a model trained on `k` target columns returns
either a 1-D array of `n` entries (then `k = 1`) or a 2-D array of `k`
columns of `n` entries each. -/
def predShape (a : NpArray) (n k : Nat) : Prop :=
  match a with
  | .oneD v => v.length = n ∧ k = 1
  | .twoD cols => cols.length = k ∧ ∀ c ∈ cols, c.length = n

/-! ## Helper lemmas about column popping and data preparation -/

/-- Popping an existing column from a frame with pairwise-distinct column
names returns that column's values and keeps the other columns in order. -/
theorem popColumn_spec (cols : List (String × Col)) (n : String)
    (hnd : (cols.map Prod.fst).Nodup) (hmem : n ∈ cols.map Prod.fst) :
    popColumn cols n =
      some ((Frame.mk cols).colValues n, cols.filter (fun c => !(c.1 == n))) := by
  induction cols with
  | nil => simp at hmem
  | cons c cs ih =>
    by_cases h : c.1 = n
    · have hnotin : ∀ c' ∈ cs, ¬(c'.1 = n) := by
        intro c' hc' he
        have : c.1 ∈ cs.map Prod.fst := by
          rw [h, ← he]; exact List.mem_map_of_mem Prod.fst hc'
        exact (List.nodup_cons.mp hnd).1 this
      have hfil : cs.filter (fun c' => !(c'.1 == n)) = cs := by
        rw [List.filter_eq_self]
        intro a ha
        simp [beq_eq_false_iff_ne, hnotin a ha]
      simp [popColumn, h, Frame.colValues, List.find?, hfil]
    · have hmem' : n ∈ cs.map Prod.fst := by
        rcases List.mem_cons.mp hmem with h1 | h1
        · exact absurd h1.symm h
        · exact h1
      have ih' := ih (List.nodup_cons.mp hnd).2 hmem'
      have hbeq : (c.1 == n) = false := by simp [beq_eq_false_iff_ne, h]
      simp only [popColumn, h, if_false, ih', Frame.colValues, List.find?, hbeq,
        List.filter_cons, Bool.not_false]
      simp [Frame.colValues]

/-- Finding an entry survives a filter that keeps everything the find
predicate accepts. -/
theorem find?_filter_of_imp (l : List (String × Col)) (p q : String × Col → Bool)
    (hpq : ∀ c, p c = true → q c = true) :
    (l.filter q).find? p = l.find? p := by
  induction l with
  | nil => rfl
  | cons c cs ih =>
    cases hq : q c with
    | true =>
      cases hp : p c with
      | true => simp [List.filter_cons, hq, List.find?, hp]
      | false => simp [List.filter_cons, hq, List.find?, hp, ih]
    | false =>
      have hp : p c = false := by
        cases hp : p c with
        | true => exact absurd (hpq c hp) (by simp [hq])
        | false => rfl
      simp [List.filter_cons, hq, List.find?, hp, ih]

/-- Looking up a column other than `t` is unaffected by removing the
columns named `t`. -/
theorem colValues_filter_ne (f : Frame) (t t' : String) (hne : t' ≠ t) :
    (Frame.mk (f.columns.filter (fun c => !(c.1 == t)))).colValues t' =
      f.colValues t' := by
  unfold Frame.colValues
  rw [find?_filter_of_imp]
  intro c hc
  have : c.1 = t' := by simpa [beq_iff_eq] using hc
  simp [beq_eq_false_iff_ne, this, hne]

/-- Filtering on a predicate of the column name commutes with taking the
name list. -/
theorem colNames_filter (cols : List (String × Col)) (p : String → Bool) :
    (cols.filter (fun c => p c.1)).map Prod.fst = (cols.map Prod.fst).filter p := by
  induction cols with
  | nil => rfl
  | cons c cs ih =>
    cases h : p c.1 with
    | true => simp [List.filter_cons, h, ih]
    | false => simp [List.filter_cons, h, ih]

/-- Popping pairwise-distinct, present target columns in order yields
exactly those columns' values in target order, and leaves the remaining
columns in their original order. -/
theorem popTargets_spec (ts : List String) (f : Frame)
    (hts : ts.Nodup) (hnd : f.colNames.Nodup) (hmem : ∀ t ∈ ts, t ∈ f.colNames) :
    popTargets f ts =
      .ok (ts.map f.colValues,
           Frame.mk (f.columns.filter (fun c => !(ts.contains c.1)))) := by
  induction ts generalizing f with
  | nil =>
    simp only [popTargets, List.map_nil]
    have : f.columns.filter (fun c => !(List.contains [] c.1)) = f.columns := by
      rw [List.filter_eq_self]; intro a _; rfl
    rw [this]
  | cons t ts ih =>
    have hmt : t ∈ f.colNames := hmem t (List.mem_cons_self t ts)
    have hpop : f.pop t =
        some (f.colValues t, Frame.mk (f.columns.filter (fun c => !(c.1 == t)))) := by
      unfold Frame.pop
      rw [popColumn_spec f.columns t hnd hmt]
    have htnotts : t ∉ ts := (List.nodup_cons.mp hts).1
    set f' : Frame := Frame.mk (f.columns.filter (fun c => !(c.1 == t))) with hf'
    have hnames' : f'.colNames = f.colNames.filter (fun s => !(s == t)) := by
      unfold Frame.colNames
      exact colNames_filter f.columns (fun s => !(s == t))
    have hnd' : f'.colNames.Nodup := by
      rw [hnames']; exact List.Nodup.filter _ hnd
    have hmem' : ∀ t' ∈ ts, t' ∈ f'.colNames := by
      intro t' ht'
      rw [hnames']
      refine List.mem_filter.mpr ⟨hmem t' (List.mem_cons_of_mem t ht'), ?_⟩
      have : t' ≠ t := fun he => htnotts (he ▸ ht')
      simp [beq_eq_false_iff_ne, this]
    have ih' := ih f' (List.nodup_cons.mp hts).2 hnd' hmem'
    have hvals : ts.map f'.colValues = ts.map f.colValues := by
      apply List.map_congr_left
      intro t' ht'
      have : t' ≠ t := fun he => htnotts (he ▸ ht')
      exact colValues_filter_ne f t t' this
    have hfil : f'.columns.filter (fun c => !(ts.contains c.1)) =
        f.columns.filter (fun c => !(List.contains (t :: ts) c.1)) := by
      rw [hf']
      rw [List.filter_filter]
      apply List.filter_congr
      intro c _
      rw [List.contains_cons]
      cases h1 : c.1 == t <;> cases h2 : ts.contains c.1 <;> rfl
    simp only [popTargets, hpop, ih', hvals, hfil, List.map_cons]

/-- Successful run of `_process_data`: with a non-empty list of pairwise
distinct target columns all present in a dataset with distinct column
names, it returns `x` (the non-target columns, original order) and `y`
(the target columns, in the order of `target`). -/
theorem processData_spec (target : List String) (ds : Frame)
    (h1 : target ≠ []) (h2 : target.Nodup) (h3 : ds.colNames.Nodup)
    (h4 : ∀ t ∈ target, t ∈ ds.colNames) :
    processData target ds =
      .ok (some
        (.twoD ((ds.columns.filter (fun c => !(target.contains c.1))).map Prod.snd),
         .twoD (target.map ds.colValues))) := by
  have hlen : ¬ target.length = 0 := by
    simpa [List.length_eq_zero] using h1
  have hany : (target.any (fun col => !(ds.colNames.contains col))) = false := by
    rw [List.any_eq_false]
    intro t ht
    simp only [Bool.not_eq_true', Bool.not_eq_false]
    simpa [List.contains, List.elem_eq_mem] using h4 t ht
  unfold processData
  rw [if_neg hlen]
  simp only [hany, Bool.false_eq_true, if_false]
  rw [popTargets_spec target ds h2 h3 h4]
  rfl

/-! ## Helper lemmas about the prediction frame and `fit` -/

/-- On a 2-D prediction array with enough columns, the dict comprehension
pairs targets to array columns positionally, starting at column `i`. -/
theorem buildPredDict_twoD (cols : List Col) (ts : List String) (i : Nat)
    (acc : List (String × Col)) (hts : ts.Nodup)
    (hfresh : ∀ t ∈ ts, ∀ p ∈ acc, ¬ p.1 = t)
    (hlen : i + ts.length ≤ cols.length) :
    buildPredDict (.twoD cols) ts i acc = .ok (acc ++ ts.zip (cols.drop i)) := by
  induction ts generalizing i acc with
  | nil => simp [buildPredDict]
  | cons t ts ih =>
    have hi : i < cols.length := by
      simp only [List.length_cons] at hlen; omega
    have hget : cols.get? i = some cols[i] := by
      rw [List.get?_eq_getElem?, List.getElem?_eq_getElem hi]
    have hanyf : (acc.any (fun p => p.1 == t)) = false := by
      rw [List.any_eq_false]
      intro p hp
      simp [beq_eq_false_iff_ne]
      exact hfresh t (List.mem_cons_self t ts) p hp
    have htnotts : t ∉ ts := (List.nodup_cons.mp hts).1
    have hfresh' : ∀ t' ∈ ts, ∀ p ∈ acc ++ [(t, cols[i])], ¬ p.1 = t' := by
      intro t' ht' p hp
      rcases List.mem_append.mp hp with h | h
      · exact hfresh t' (List.mem_cons_of_mem t ht') p h
      · have hp1 : p.1 = t := by
          have : p = (t, cols[i]) := by simpa using h
          rw [this]
        rw [hp1]
        exact fun he => htnotts (he.symm ▸ ht')
    have ih' := ih (i + 1) (acc ++ [(t, cols[i])]) (List.nodup_cons.mp hts).2
      hfresh' (by simp only [List.length_cons] at hlen; omega)
    have hdrop : cols.drop i = cols[i] :: cols.drop (i + 1) :=
      List.drop_eq_getElem_cons hi
    simp only [buildPredDict, npColumn, hget, dictInsert, hanyf,
      Bool.false_eq_true, if_false, ih', hdrop, List.zip_cons_cons,
      List.append_assoc, List.singleton_append]

/-- On a 1-D prediction array, the dict comprehension assigns the whole
array to every target name. -/
theorem buildPredDict_oneD (v : Col) (ts : List String) (i : Nat)
    (acc : List (String × Col)) (hts : ts.Nodup)
    (hfresh : ∀ t ∈ ts, ∀ p ∈ acc, ¬ p.1 = t) :
    buildPredDict (.oneD v) ts i acc = .ok (acc ++ ts.map (fun t => (t, v))) := by
  induction ts generalizing i acc with
  | nil => simp [buildPredDict]
  | cons t ts ih =>
    have hanyf : (acc.any (fun p => p.1 == t)) = false := by
      rw [List.any_eq_false]
      intro p hp
      simp [beq_eq_false_iff_ne]
      exact hfresh t (List.mem_cons_self t ts) p hp
    have htnotts : t ∉ ts := (List.nodup_cons.mp hts).1
    have hfresh' : ∀ t' ∈ ts, ∀ p ∈ acc ++ [(t, v)], ¬ p.1 = t' := by
      intro t' ht' p hp
      rcases List.mem_append.mp hp with h | h
      · exact hfresh t' (List.mem_cons_of_mem t ht') p h
      · have hp1 : p.1 = t := by
          have : p = (t, v) := by simpa using h
          rw [this]
        rw [hp1]
        exact fun he => htnotts (he.symm ▸ ht')
    have ih' := ih (i + 1) (acc ++ [(t, v)]) (List.nodup_cons.mp hts).2 hfresh'
    simp only [buildPredDict, npColumn, dictInsert, hanyf, Bool.false_eq_true,
      if_false, ih', List.map_cons, List.append_assoc, List.singleton_append]

/-- The predictions frame built from a 2-D array with at least as many
columns as targets: positional pairing in target order. -/
theorem buildPredFrame_twoD (target : List String) (cols : List Col)
    (hnd : target.Nodup) (hlen : target.length ≤ cols.length) :
    buildPredFrame target (.twoD cols) = .ok (Frame.mk (target.zip cols)) := by
  unfold buildPredFrame
  rw [buildPredDict_twoD cols target 0 [] hnd (by intro t _ p hp; simp at hp)
    (by simpa using hlen)]
  simp

/-- The predictions frame built from a 1-D array: every target name gets
the entire array as its column. -/
theorem buildPredFrame_oneD (target : List String) (v : Col)
    (hnd : target.Nodup) :
    buildPredFrame target (.oneD v) = .ok (Frame.mk (target.map (fun t => (t, v)))) := by
  unfold buildPredFrame
  rw [buildPredDict_oneD v target 0 [] hnd (by intro t _ p hp; simp at hp)]
  simp

/-- Evaluation of a successful `fit`: with the model resolved and the data
prepared, `fit` trains, writes `model.sav` and writes `description.json`. -/
theorem fit_eq_of_ok (fm : ModelType → NpArray → NpArray → SavedModel)
    (st : IgelState) (ds : Frame) (fs : FS) (mt : ModelType) (x y : NpArray)
    (hc : createModel st.model_type st.algorithm = .ok mt)
    (hp : processData st.target ds = .ok (some (x, y))) :
    IgelModel.fit fm st ds fs =
      (.success,
       ⟨some (fm mt x y),
        some ⟨mt.className, st.model_type, st.data_path, res_path, res_path, st.target⟩,
        fs.evaluationFile, fs.predictionsFile⟩) := by
  simp [IgelModel.fit, hc, hp]

/-- Inversion of a successful `fit`: success implies the model resolved
and the data prepared. -/
theorem fit_success_inv (fm : ModelType → NpArray → NpArray → SavedModel)
    (st : IgelState) (ds : Frame) (fs : FS)
    (h : (IgelModel.fit fm st ds fs).1 = .success) :
    ∃ mt x y, createModel st.model_type st.algorithm = .ok mt ∧
      processData st.target ds = .ok (some (x, y)) := by
  unfold IgelModel.fit at h
  cases hc : createModel st.model_type st.algorithm with
  | error e => rw [hc] at h; simp at h
  | ok mt =>
    rw [hc] at h
    cases hp : processData st.target ds with
    | error e => rw [hp] at h; simp at h
    | ok o =>
      rw [hp] at h
      cases o with
      | none => simp at h
      | some xy =>
        obtain ⟨x, y⟩ := xy
        exact ⟨mt, x, y, rfl, rfl⟩

/-- A valid configuration resolves to a registry entry. -/
theorem createModel_of_valid (cfg : RunConfig) (h : ValidConfig cfg) :
    ∃ mt, createModel cfg.model_type cfg.algorithm = .ok mt ∧
      ((modelsDict cfg.model_type).getD (fun _ => none)) cfg.algorithm = some mt := by
  obtain ⟨hmem, halg, -, -⟩ := h
  unfold createModel
  rw [if_pos hmem]
  cases hd : modelsDict cfg.model_type with
  | none => rw [hd] at halg; simp at halg
  | some algorithms =>
    rw [hd] at halg
    cases ha : algorithms cfg.algorithm with
    | none => simp at halg; exact absurd ha halg
    | some m => exact ⟨m, by simp [ha], by simp [ha]⟩

/-! ## Concrete objects used by witnesses -/

/-- A concrete training collaborator: ignores the data and returns an
estimator predicting a constant 1-D array of two entries. -/
def demoFm : ModelType → NpArray → NpArray → SavedModel :=
  fun mt _ _ => ⟨mt.className, fun _ => .oneD [0, 0]⟩

/-- A concrete metric evaluator. -/
def demoEval : String → NpArray → NpArray → EvalDoc :=
  fun _ _ _ => [("accuracy", 1)]

/-- A concrete map of files outside the results directory: none exist. -/
def demoExt : String → Option SavedModel :=
  fun _ => none

/-- A concrete two-column dataset with target column `y`. -/
def demoFrame2 : Frame :=
  ⟨[("x1", [1, 2]), ("y", [3, 4])]⟩

/-- A concrete valid configuration. -/
def demoCfg : RunConfig :=
  ⟨"regression", ["y"], "LinearRegression"⟩

/-- A concrete description document as written by a fit of `demoCfg`. -/
def demoDescription : Description :=
  ⟨"LinearRegression", "regression", "data.csv", res_path, res_path, ["y"]⟩

/-- A results directory holding only a description document. -/
def fsWithDescription : FS :=
  ⟨none, some demoDescription, none, none⟩

/-! ## Claims -/

/-- C3 counterexample: with the duplicated target list `["y", "y"]` the
dataset `{y: [1]}` contains every configured target column, yet
`_process_data` does not return the claimed target/feature arrays: the
second `dataset.pop("y")` raises `KeyError`, the exception is caught, and
the method returns `None` (`.ok none`). -/
theorem process_data_duplicate_target_counterexample :
    processData ["y", "y"] (Frame.mk [("y", [1])]) = .ok none := by
  rfl

/-- C3 (amended): for a non-empty list of pairwise-distinct target columns
all present in the dataset (whose column names are unique, as `read_csv`
guarantees), `_process_data` returns a targets array whose columns are the
target columns in exactly the order listed in `target`, and a features
array consisting of the remaining columns in their original dataset
order. -/
theorem process_data_target_order (target : List String) (ds : Frame)
    (h1 : target ≠ []) (h2 : target.Nodup) (h3 : ds.colNames.Nodup)
    (h4 : ∀ t ∈ target, t ∈ ds.colNames) :
    processData target ds =
      .ok (some
        (.twoD ((ds.columns.filter (fun c => !(target.contains c.1))).map Prod.snd),
         .twoD (target.map ds.colValues))) :=
  processData_spec target ds h1 h2 h3 h4

/-- C3 witness: a concrete run of the amended statement. -/
theorem process_data_target_order_witness :
    processData ["y"] (Frame.mk [("x1", [1, 2]), ("y", [3, 4])]) =
      .ok (some (.twoD [[1, 2]], .twoD [[3, 4]])) :=
  process_data_target_order ["y"] (Frame.mk [("x1", [1, 2]), ("y", [3, 4])])
    (by decide) (by decide) (by decide) (by decide)

/-- C2: on a dataset lacking at least one configured target column, `fit`
terminates without writing anything — in particular neither `model.sav`
nor `description.json` — and the failure propagates to the caller (either
the missing-column exception turned into `_process_data`'s `None`, whose
unpacking raises `TypeError`, or an earlier registry error). -/
theorem fit_missing_target_writes_nothing
    (fm : ModelType → NpArray → NpArray → SavedModel)
    (st : IgelState) (ds : Frame) (fs : FS)
    (h : ∃ t ∈ st.target, t ∉ ds.colNames) :
    (IgelModel.fit fm st ds fs).2 = fs ∧
    (IgelModel.fit fm st ds fs).1.isRaised = true := by
  obtain ⟨t, ht, hnot⟩ := h
  have htne : ¬ st.target.length = 0 := by
    intro h0
    rw [List.length_eq_zero] at h0
    rw [h0] at ht
    simp at ht
  have hany : (st.target.any (fun col => !(ds.colNames.contains col))) = true := by
    rw [List.any_eq_true]
    refine ⟨t, ht, ?_⟩
    simpa [List.contains, List.elem_eq_mem] using hnot
  have hproc : processData st.target ds = .ok none := by
    unfold processData
    rw [if_neg htne]
    simp only [hany, if_true]
  cases hc : createModel st.model_type st.algorithm with
  | error e => simp [IgelModel.fit, hc, Outcome.isRaised]
  | ok mt => simp [IgelModel.fit, hc, hproc, Outcome.isRaised]

/-- C2 witness: requesting target `price` on a dataset with columns
`x1, x2` leaves the artifact store untouched. -/
theorem fit_missing_target_writes_nothing_witness :
    (IgelModel.fit demoFm ⟨"fit", "data.csv", "regression", ["price"], "LinearRegression", none⟩
        (Frame.mk [("x1", [1]), ("x2", [2])]) emptyFS).2 = emptyFS ∧
    (IgelModel.fit demoFm ⟨"fit", "data.csv", "regression", ["price"], "LinearRegression", none⟩
        (Frame.mk [("x1", [1]), ("x2", [2])]) emptyFS).1.isRaised = true :=
  fit_missing_target_writes_nothing demoFm
    ⟨"fit", "data.csv", "regression", ["price"], "LinearRegression", none⟩
    (Frame.mk [("x1", [1]), ("x2", [2])]) emptyFS
    ⟨"price", by decide, by decide⟩

/-- C4: an unrecognized problem kind fails the `assert` in
`_create_model` (`UnsupportedProblemKind`); a recognized kind with an
unregistered algorithm name raises the model-not-found exception
(`AlgorithmNotFound`); and when `_create_model` raises, `fit` propagates
the exception before touching the artifact store, so no partial artifact
is written. -/
theorem create_model_registry_errors :
    (∀ kind alg, kind ∉ modelTypes → createModel kind alg = .error .assertionError) ∧
    (∀ kind alg algorithms, modelsDict kind = some algorithms → algorithms alg = none →
      createModel kind alg = .error .modelNotFound) ∧
    (∀ (fm : ModelType → NpArray → NpArray → SavedModel) (st : IgelState)
        (ds : Frame) (fs : FS) (e : Err),
      createModel st.model_type st.algorithm = .error e →
      IgelModel.fit fm st ds fs = (.raised e, fs)) := by
  refine ⟨?_, ?_, ?_⟩
  · intro kind alg h
    unfold createModel
    rw [if_neg h]
  · intro kind alg algorithms hd ha
    have hmem : kind ∈ modelTypes := by
      by_cases h1 : kind = "regression"
      · rw [h1]; decide
      · by_cases h2 : kind = "classification"
        · rw [h2]; decide
        · exfalso
          unfold modelsDict at hd
          rw [if_neg h1, if_neg h2] at hd
          simp at hd
    unfold createModel
    rw [if_pos hmem, hd]
    simp [ha]
  · intro fm st ds fs e hc
    simp [IgelModel.fit, hc]

/-- C4 witness: `clustering` is rejected as a kind, `NoSuchAlgorithm` is
not registered under `regression`, and such a `fit` writes nothing. -/
theorem create_model_registry_errors_witness :
    createModel "clustering" "KMeans" = .error .assertionError ∧
    createModel "regression" "NoSuchAlgorithm" = .error .modelNotFound ∧
    IgelModel.fit demoFm ⟨"fit", "data.csv", "regression", ["y"], "NoSuchAlgorithm", none⟩
      demoFrame2 emptyFS = (.raised .modelNotFound, emptyFS) :=
  ⟨create_model_registry_errors.1 "clustering" "KMeans" (by decide),
   create_model_registry_errors.2.1 "regression" "NoSuchAlgorithm" regressionModels rfl rfl,
   create_model_registry_errors.2.2 demoFm
     ⟨"fit", "data.csv", "regression", ["y"], "NoSuchAlgorithm", none⟩
     demoFrame2 emptyFS .modelNotFound rfl⟩

/-- C9: constructing the orchestrator with a command outside
`{fit, evaluate, predict}` is not rejected: the invalid command is only
logged, it is stored as `self.command`, and construction proceeds down
the non-fit branch, reading `description.json` from the fixed results
directory — succeeding with the stored invalid command if the description
exists, raising `FileNotFoundError` if it does not. -/
theorem init_invalid_command (cmd : String) (fs : FS) (cfg : Option RunConfig)
    (mp : Option String) (dp : String) (h : cmd ∉ commands) :
    (fs.descriptionFile = none →
      IgelModel.init cmd fs cfg mp dp = .error .fileNotFound) ∧
    (∀ d, fs.descriptionFile = some d →
      IgelModel.init cmd fs cfg mp dp = .ok ⟨cmd, dp, d.type, d.target, "", mp⟩) := by
  have hne : ¬ cmd = "fit" := fun he => h (by rw [he]; decide)
  constructor
  · intro hd
    unfold IgelModel.init
    rw [if_neg hne, hd]
  · intro d hd
    unfold IgelModel.init
    rw [if_neg hne, hd]

/-- C9 witness: the invalid command `transmogrify` is stored and
construction reads the description file. -/
theorem init_invalid_command_witness :
    IgelModel.init "transmogrify" fsWithDescription none none "d.csv" =
      .ok ⟨"transmogrify", "d.csv", "regression", ["y"], "", none⟩ ∧
    IgelModel.init "transmogrify" emptyFS none none "d.csv" = .error .fileNotFound :=
  ⟨(init_invalid_command "transmogrify" fsWithDescription none none "d.csv"
      (by decide)).2 demoDescription rfl,
   (init_invalid_command "transmogrify" emptyFS none none "d.csv" (by decide)).1 rfl⟩

/-- C10: in the frame construction of `predict` (the dict comprehension of
line 222, applied to whatever array reaches it), positional pairing of
prediction-array columns to target names happens exactly when the array is
2-dimensional; on a 1-dimensional array every target column of
`predictions.csv` is assigned the same entire 1-D prediction array (this
also covers the claim's case of more than one trained target column). -/
theorem predict_pairing (target : List String) (cols : List Col) (v : Col)
    (hnd : target.Nodup) :
    (target.length ≤ cols.length →
      buildPredFrame target (.twoD cols) = .ok (Frame.mk (target.zip cols))) ∧
    buildPredFrame target (.oneD v) = .ok (Frame.mk (target.map (fun t => (t, v)))) :=
  ⟨fun hlen => buildPredFrame_twoD target cols hnd hlen,
   buildPredFrame_oneD target v hnd⟩

/-- C10 witness: positional pairing on a 2-column array, and the shared
whole-array assignment on a 1-D array with two target columns. -/
theorem predict_pairing_witness :
    buildPredFrame ["y1", "y2"] (.twoD [[1, 2], [3, 4]]) =
      .ok (Frame.mk [("y1", [1, 2]), ("y2", [3, 4])]) ∧
    buildPredFrame ["y1", "y2"] (.oneD [5, 6]) =
      .ok (Frame.mk [("y1", [5, 6]), ("y2", [5, 6])]) :=
  ⟨(predict_pairing ["y1", "y2"] [[1, 2], [3, 4]] [5, 6] (by decide)).1 (by decide),
   (predict_pairing ["y1", "y2"] [[1, 2], [3, 4]] [5, 6] (by decide)).2⟩

/-- C5 counterexample: an error of the spec's taxonomy raised during the
`fit` operation is not caught at its top: with an unregistered algorithm
name, the model-not-found exception (`AlgorithmNotFound`) propagates to
the caller instead of being caught and logged. -/
theorem fit_uncaught_error_counterexample :
    (IgelModel.fit demoFm
      ⟨"fit", "data.csv", "regression", ["y"], "NoSuchAlgorithm", none⟩
      demoFrame2 emptyFS).1 = .raised .modelNotFound := by
  rfl

/-- C5 (amended): `evaluate` and `predict` wrap their whole bodies in
`try/except Exception`, so every error raised during them is caught at the
top, logged, and the operation returns without raising to the caller;
`fit`, by contrast, only wraps the description-write step, so errors
during model resolution, data preparation or training propagate to
`fit`'s caller. -/
theorem evaluate_predict_catch_all (evalFn : String → NpArray → NpArray → EvalDoc)
    (st : IgelState) (fs : FS) (extFiles : String → Option SavedModel)
    (d : Frame) :
    (IgelModel.evaluate evalFn st fs extFiles d).1.isRaised = false ∧
    (IgelModel.predict st fs extFiles d).1.isRaised = false := by
  constructor
  · unfold IgelModel.evaluate
    cases loadModel fs st.model_path extFiles with
    | none => rfl
    | some m =>
      cases processData st.target d with
      | error e => rfl
      | ok o =>
        cases o with
        | none => rfl
        | some xy =>
          obtain ⟨x, y⟩ := xy
          rfl
  · unfold IgelModel.predict
    cases loadModel fs st.model_path extFiles with
    | none => rfl
    | some m =>
      dsimp only
      cases buildPredFrame st.target (reshape (m.predictFn (preparePredictData d).toNumpy)) with
      | error e => rfl
      | ok df => rfl

/-- C6: running the `evaluate` command against a results directory that
contains no `description.json` fails already at construction with
`FileNotFoundError` (raised out of `__init__`, line 52), and the artifact
store is untouched — in particular no `evaluation.json` is written. -/
theorem evaluate_without_description
    (fm : ModelType → NpArray → NpArray → SavedModel)
    (evalFn : String → NpArray → NpArray → EvalDoc)
    (extFiles : String → Option SavedModel)
    (cfg : Option RunConfig) (mp : Option String) (dp : String)
    (fs : FS) (d : Frame) (h : fs.descriptionFile = none) :
    runCommand fm evalFn extFiles "evaluate" cfg mp dp fs d =
      (.raised .fileNotFound, fs) := by
  unfold runCommand IgelModel.init
  rw [if_neg (by decide : ¬ ("evaluate" = "fit")), h]

/-- C6 witness: a concrete evaluate run against the empty results
directory. -/
theorem evaluate_without_description_witness :
    runCommand demoFm demoEval demoExt "evaluate" none none "data.csv" emptyFS demoFrame2 =
      (.raised .fileNotFound, emptyFS) :=
  evaluate_without_description demoFm demoEval demoExt none none "data.csv"
    emptyFS demoFrame2 rfl

/-- C7: a successful `fit` writes a `description.json` with exactly the
fields `model` (the algorithm class name), `type` (the problem kind),
`data_path`, `results_path`, `model_path` and `target` (the configured
target columns) — the `Description` structure has exactly these six
fields, and the written document is the record below. -/
theorem fit_description_contents
    (fm : ModelType → NpArray → NpArray → SavedModel)
    (st : IgelState) (ds : Frame) (fs : FS)
    (h : (IgelModel.fit fm st ds fs).1 = .success) :
    ∃ mt, createModel st.model_type st.algorithm = .ok mt ∧
      (IgelModel.fit fm st ds fs).2.descriptionFile =
        some ⟨mt.className, st.model_type, st.data_path, res_path, res_path, st.target⟩ := by
  obtain ⟨mt, x, y, hc, hp⟩ := fit_success_inv fm st ds fs h
  refine ⟨mt, hc, ?_⟩
  rw [fit_eq_of_ok fm st ds fs mt x y hc hp]

/-- C7 witness: a concrete successful fit and its description document. -/
theorem fit_description_contents_witness :
    ∃ mt, createModel "regression" "LinearRegression" = .ok mt ∧
      (IgelModel.fit demoFm
        ⟨"fit", "data.csv", "regression", ["y"], "LinearRegression", none⟩
        demoFrame2 emptyFS).2.descriptionFile =
        some ⟨mt.className, "regression", "data.csv", res_path, res_path, ["y"]⟩ :=
  fit_description_contents demoFm
    ⟨"fit", "data.csv", "regression", ["y"], "LinearRegression", none⟩
    demoFrame2 emptyFS (by rfl)

/-- Evaluation of `predict` when the model loads and the frame builds:
`predictions.csv` is written and nothing else changes. -/
theorem predict_eq_of_ok (st : IgelState) (fs : FS)
    (extFiles : String → Option SavedModel) (xval : Frame)
    (m : SavedModel) (df : Frame)
    (hmp : st.model_path = none) (hm : fs.modelFile = some m)
    (hb : buildPredFrame st.target
      (reshape (m.predictFn (preparePredictData xval).toNumpy)) = .ok df) :
    IgelModel.predict st fs extFiles xval =
      (.success, { fs with predictionsFile := some df }) := by
  unfold IgelModel.predict loadModel
  rw [hmp, hm]
  dsimp only
  rw [hb]

/-- C8: running `fit` twice (possibly with different training outcomes
`fm1`, `fm2` for the two runs) with the same configuration and dataset
overwrites `model.sav` and `description.json` in place: the resulting
artifact store equals the one a single second fit would have produced from
the original store — the first fit's artifacts are gone — `model.sav` now
holds exactly the second fit's trained model, and any subsequent `predict`
against the store behaves as if only the second fit had run. -/
theorem fit_twice_overwrites
    (fm1 fm2 : ModelType → NpArray → NpArray → SavedModel)
    (st : IgelState) (ds : Frame) (fs0 : FS)
    (h : (IgelModel.fit fm2 st ds (IgelModel.fit fm1 st ds fs0).2).1 = .success) :
    (IgelModel.fit fm2 st ds (IgelModel.fit fm1 st ds fs0).2).2 =
      (IgelModel.fit fm2 st ds fs0).2 ∧
    (∃ mt x y, createModel st.model_type st.algorithm = .ok mt ∧
      processData st.target ds = .ok (some (x, y)) ∧
      (IgelModel.fit fm2 st ds (IgelModel.fit fm1 st ds fs0).2).2.modelFile =
        some (fm2 mt x y)) ∧
    (∀ (stP : IgelState) (extFiles : String → Option SavedModel) (xval : Frame),
      IgelModel.predict stP (IgelModel.fit fm2 st ds (IgelModel.fit fm1 st ds fs0).2).2
          extFiles xval =
        IgelModel.predict stP (IgelModel.fit fm2 st ds fs0).2 extFiles xval) := by
  obtain ⟨mt, x, y, hc, hp⟩ := fit_success_inv fm2 st ds _ h
  have h1 := fit_eq_of_ok fm1 st ds fs0 mt x y hc hp
  have heq : (IgelModel.fit fm2 st ds (IgelModel.fit fm1 st ds fs0).2).2 =
      (IgelModel.fit fm2 st ds fs0).2 := by
    rw [h1, fit_eq_of_ok fm2 st ds _ mt x y hc hp,
      fit_eq_of_ok fm2 st ds fs0 mt x y hc hp]
  refine ⟨heq, ⟨mt, x, y, hc, hp, ?_⟩, fun stP extFiles xval => by rw [heq]⟩
  rw [h1, fit_eq_of_ok fm2 st ds _ mt x y hc hp]

/-- C8 witness: two concrete fits with training collaborators that return
distinguishable models; the store afterwards holds the second model. -/
theorem fit_twice_overwrites_witness :
    (IgelModel.fit demoFm
        ⟨"fit", "data.csv", "regression", ["y"], "LinearRegression", none⟩ demoFrame2
        (IgelModel.fit demoFm
          ⟨"fit", "data.csv", "regression", ["y"], "LinearRegression", none⟩
          demoFrame2 emptyFS).2).2 =
      (IgelModel.fit demoFm
        ⟨"fit", "data.csv", "regression", ["y"], "LinearRegression", none⟩
        demoFrame2 emptyFS).2 ∧
    (∃ mt x y, createModel "regression" "LinearRegression" = .ok mt ∧
      processData ["y"] demoFrame2 = .ok (some (x, y)) ∧
      (IgelModel.fit demoFm
        ⟨"fit", "data.csv", "regression", ["y"], "LinearRegression", none⟩ demoFrame2
        (IgelModel.fit demoFm
          ⟨"fit", "data.csv", "regression", ["y"], "LinearRegression", none⟩
          demoFrame2 emptyFS).2).2.modelFile = some (demoFm mt x y)) ∧
    (∀ (stP : IgelState) (extFiles : String → Option SavedModel) (xval : Frame),
      IgelModel.predict stP
          (IgelModel.fit demoFm
            ⟨"fit", "data.csv", "regression", ["y"], "LinearRegression", none⟩ demoFrame2
            (IgelModel.fit demoFm
              ⟨"fit", "data.csv", "regression", ["y"], "LinearRegression", none⟩
              demoFrame2 emptyFS).2).2 extFiles xval =
        IgelModel.predict stP
          (IgelModel.fit demoFm
            ⟨"fit", "data.csv", "regression", ["y"], "LinearRegression", none⟩
            demoFrame2 emptyFS).2 extFiles xval) :=
  fit_twice_overwrites demoFm demoFm
    ⟨"fit", "data.csv", "regression", ["y"], "LinearRegression", none⟩
    demoFrame2 emptyFS (by rfl)

/-- Column names and row count of a positionally paired prediction
frame. -/
theorem zip_frame_stats (target : List String) (cols : List Col) (n : Nat)
    (hne : target ≠ []) (hlen : target.length ≤ cols.length)
    (hall : ∀ c ∈ cols, c.length = n) :
    (Frame.mk (target.zip cols)).colNames = target ∧
    (Frame.mk (target.zip cols)).nRows = n := by
  constructor
  · unfold Frame.colNames
    exact List.map_fst_zip target cols hlen
  · cases target with
    | nil => exact absurd rfl hne
    | cons t ts =>
      cases cols with
      | nil => simp at hlen
      | cons c cs =>
        unfold Frame.nRows
        simp only [List.zip_cons_cons]
        exact hall c (List.mem_cons_self c cs)

/-- C1: for a valid configuration (recognized kind, registered algorithm,
non-empty pairwise-distinct target columns) whose targets are all present
in the dataset, and an opaque estimator honoring the prediction shape
contract, running `fit` and then `predict` on the same dataset succeeds
and writes a `predictions.csv` whose column names are exactly the
configured target columns in the same configured order, and whose row
count equals the row count of the prediction input file. The `predict`
construction recovers the targets from the `description.json` written by
the `fit` run. -/
theorem fit_then_predict_spec
    (fm : ModelType → NpArray → NpArray → SavedModel)
    (extFiles : String → Option SavedModel)
    (cfg : RunConfig) (ds : Frame) (dp : String) (fs0 : FS)
    (hv : ValidConfig cfg) (hnd : ds.colNames.Nodup)
    (hsub : ∀ t ∈ cfg.target, t ∈ ds.colNames)
    (hshape : ∀ mt x y,
      predShape ((fm mt x y).predictFn ds.toNumpy) ds.nRows cfg.target.length) :
    IgelModel.init "fit" fs0 (some cfg) none dp = .ok (fitState cfg dp) ∧
    (IgelModel.fit fm (fitState cfg dp) ds fs0).1 = .success ∧
    IgelModel.init "predict" (IgelModel.fit fm (fitState cfg dp) ds fs0).2 none none dp
      = .ok (predState cfg dp) ∧
    (IgelModel.predict (predState cfg dp)
        (IgelModel.fit fm (fitState cfg dp) ds fs0).2 extFiles ds).1 = .success ∧
    ((IgelModel.predict (predState cfg dp)
        (IgelModel.fit fm (fitState cfg dp) ds fs0).2 extFiles ds).2.predictionsFile).map
      Frame.colNames = some cfg.target ∧
    ((IgelModel.predict (predState cfg dp)
        (IgelModel.fit fm (fitState cfg dp) ds fs0).2 extFiles ds).2.predictionsFile).map
      Frame.nRows = some ds.nRows := by
  obtain ⟨mt, hc, -⟩ := createModel_of_valid cfg hv
  obtain ⟨-, -, hne, hdup⟩ := hv
  have hp := processData_spec cfg.target ds hne hdup hnd hsub
  have hfit := fit_eq_of_ok fm (fitState cfg dp) ds fs0 mt _ _ hc hp
  have hsh := hshape mt
    (.twoD ((ds.columns.filter (fun c => !(cfg.target.contains c.1))).map Prod.snd))
    (.twoD (cfg.target.map ds.colValues))
  set m : SavedModel := fm mt
    (.twoD ((ds.columns.filter (fun c => !(cfg.target.contains c.1))).map Prod.snd))
    (.twoD (cfg.target.map ds.colValues)) with hm
  have hbuild : ∃ df, buildPredFrame cfg.target
      (reshape (m.predictFn (preparePredictData ds).toNumpy)) = .ok df ∧
      df.colNames = cfg.target ∧ df.nRows = ds.nRows := by
    cases harr : m.predictFn ds.toNumpy with
    | oneD v =>
      rw [harr] at hsh
      obtain ⟨hvl, hk⟩ := hsh
      obtain ⟨t, ht⟩ := List.length_eq_one.mp hk
      refine ⟨Frame.mk (cfg.target.zip [v]), ?_, ?_, ?_⟩
      · show buildPredFrame cfg.target (reshape (m.predictFn ds.toNumpy)) = _
        rw [harr]
        exact buildPredFrame_twoD cfg.target [v] hdup (by rw [hk]; exact le_refl 1)
      · exact (zip_frame_stats cfg.target [v] ds.nRows hne (by rw [hk]; exact le_refl 1)
          (by intro c hcv; simp at hcv; rw [hcv]; exact hvl)).1
      · exact (zip_frame_stats cfg.target [v] ds.nRows hne (by rw [hk]; exact le_refl 1)
          (by intro c hcv; simp at hcv; rw [hcv]; exact hvl)).2
    | twoD cols =>
      rw [harr] at hsh
      obtain ⟨hcl, hall⟩ := hsh
      refine ⟨Frame.mk (cfg.target.zip cols), ?_, ?_, ?_⟩
      · show buildPredFrame cfg.target (reshape (m.predictFn ds.toNumpy)) = _
        rw [harr]
        exact buildPredFrame_twoD cfg.target cols hdup (le_of_eq hcl.symm)
      · exact (zip_frame_stats cfg.target cols ds.nRows hne (le_of_eq hcl.symm) hall).1
      · exact (zip_frame_stats cfg.target cols ds.nRows hne (le_of_eq hcl.symm) hall).2
  obtain ⟨df, hb, hcn, hnr⟩ := hbuild
  have hpred := predict_eq_of_ok (predState cfg dp)
    (IgelModel.fit fm (fitState cfg dp) ds fs0).2 extFiles ds m df rfl
    (by rw [hfit]) hb
  refine ⟨rfl, by rw [hfit], ?_, ?_, ?_, ?_⟩
  · rw [hfit]; rfl
  · rw [hpred]
  · rw [hpred]
    simp [hcn]
  · rw [hpred]
    simp [hnr]

/-- C1 witness: a concrete fit-then-predict run on a two-row dataset with
target `y`. -/
theorem fit_then_predict_spec_witness :
    IgelModel.init "fit" emptyFS (some demoCfg) none "data.csv" =
      .ok (fitState demoCfg "data.csv") ∧
    (IgelModel.fit demoFm (fitState demoCfg "data.csv") demoFrame2 emptyFS).1 = .success ∧
    IgelModel.init "predict"
        (IgelModel.fit demoFm (fitState demoCfg "data.csv") demoFrame2 emptyFS).2
        none none "data.csv" = .ok (predState demoCfg "data.csv") ∧
    (IgelModel.predict (predState demoCfg "data.csv")
        (IgelModel.fit demoFm (fitState demoCfg "data.csv") demoFrame2 emptyFS).2
        demoExt demoFrame2).1 = .success ∧
    ((IgelModel.predict (predState demoCfg "data.csv")
        (IgelModel.fit demoFm (fitState demoCfg "data.csv") demoFrame2 emptyFS).2
        demoExt demoFrame2).2.predictionsFile).map Frame.colNames = some ["y"] ∧
    ((IgelModel.predict (predState demoCfg "data.csv")
        (IgelModel.fit demoFm (fitState demoCfg "data.csv") demoFrame2 emptyFS).2
        demoExt demoFrame2).2.predictionsFile).map Frame.nRows = some 2 :=
  fit_then_predict_spec demoFm demoExt demoCfg demoFrame2 "data.csv" emptyFS
    (by unfold ValidConfig; decide) (by decide) (by decide)
    (fun mt x y => ⟨rfl, rfl⟩)
